import Mathlib

/-!
# Verification of the data cleaning-and-analysis engine

A shallow embedding of `src/lib/dataProcessor.ts` (class `DataProcessor`):
column type classification, missing-value imputation, IQR outlier detection
and capping, and per-column statistics, together with proofs settling the
frozen claims about the natural-language specification.

Modelling conventions:
* JavaScript numbers are modelled as rationals `ℚ` (all values arising here
  are finite; the spec treats numbers abstractly).
* A cell (`string | number | null | undefined`) is modelled by `Value`:
  `num q` is a number-typed cell, `str s p` is a string-typed cell whose
  `parseFloat` outcome is `p` (`some q` when parsing the leading numeric
  portion succeeds with a finite result, `none` otherwise), and `missing`
  covers `null`/`undefined` (including an absent key).
* `values.sort((a, b) => a - b)` ascending-sorts; since equal rationals are
  identical, the sorted list is unique, and we model it by `insertionSort`.
* `Math.floor(n * 0.25)`, `Math.floor(n * 0.75)` and `Math.floor(n / 2)` on
  an array length `n` equal the natural-number divisions `n / 4`, `3 * n / 4`
  and `n / 2` (0.25 and 0.75 are exactly representable binary doubles, and
  the products are exact for every realistic length).
-/

namespace DataProcessor

/-- A cell value: a number, a string (with its `parseFloat` outcome), or a
missing cell (`null`/`undefined`, including an absent key in the row). -/
inductive Value where
  | num (q : ℚ)
  | str (s : String) (p : Option ℚ)
  | missing
deriving DecidableEq

/-- The literal missing test used throughout the source:
`value === null || value === undefined || value === '' || value === 'NaN'`. -/
def Value.isMissingB : Value → Bool
  | .missing => true
  | .str s _ => s == "" || s == "NaN"
  | .num _ => false

/-- `isNumeric` (dataProcessor.ts lines 121–127): a number is numeric; a string
is numeric iff `parseFloat` yields a finite value; `null`/`undefined` are not. -/
def Value.isNumericB : Value → Bool
  | .num _ => true
  | .str _ p => p.isSome
  | .missing => false

/-- The coercion `typeof val === 'number' ? val : parseFloat(val as string)`
applied throughout the source after filtering by `isNumeric`. -/
def Value.coerceNum : Value → ℚ
  | .num q => q
  | .str _ p => p.getD 0
  | .missing => 0

/-- `String(val)`, used as the frequency-map key in the mode computation.
In the mode branch every value is string-typed, so only the `str` case is
reachable there. -/
def Value.keyStr : Value → String
  | .num q => toString q
  | .str s _ => s
  | .missing => "null"

/-- Well-formedness of a modelled cell: a string equal to `""` or `"NaN"`
never parses as a finite number (`parseFloat('')` and `parseFloat('NaN')` are
both `NaN` in JavaScript). -/
def Value.wfB : Value → Bool
  | .str s (some _) => !(s == "" || s == "NaN")
  | _ => true

/-- A row: an object mapping column names to cell values
(`DataRow` in the source). -/
abbrev Row := List (String × Value)

/-- Property access `row[column]`: an absent key yields `undefined`,
modelled as `Value.missing`. -/
def Row.get (r : Row) (c : String) : Value :=
  match r.find? (fun p => p.1 == c) with
  | some p => p.2
  | none => .missing

/-- All rows hold only well-formed cell values. -/
@[reducible] def WFData (data : List Row) : Prop :=
  ∀ r ∈ data, ∀ p ∈ r, Value.wfB p.2 = true

/-- `this.data.map(row => row[column])`: the column's values in row order. -/
def columnValues (data : List Row) (c : String) : List Value :=
  data.map (fun r => Row.get r c)

/-- The numeric-coerced values of a column, as computed identically at
dataProcessor.ts lines 130–133, 148–151, 213 and 239–242:
`this.data.map(row => row[column]).filter(isNumeric).map(coerce)`. -/
def numericValues (data : List Row) (c : String) : List ℚ :=
  ((columnValues data c).filter Value.isNumericB).map Value.coerceNum

/-- `values.sort((a, b) => a - b)`: ascending sort. -/
def sortAsc (l : List ℚ) : List ℚ :=
  List.insertionSort (· ≤ ·) l

/-- The IQR bounds computed identically inside `isOutlier` (lines 137–142)
and `handleOutlier` (lines 153–158):
`q1 = sorted[floor(n*0.25)]`, `q3 = sorted[floor(n*0.75)]`,
`iqr = q3 - q1`, bounds `(q1 - 1.5*iqr, q3 + 1.5*iqr)`. -/
def outlierBounds (data : List Row) (c : String) : ℚ × ℚ :=
  let sorted := sortAsc (numericValues data c)
  let q1 := sorted.getD (sorted.length / 4) 0
  let q3 := sorted.getD (3 * sorted.length / 4) 0
  let iqr := q3 - q1
  (q1 - 1.5 * iqr, q3 + 1.5 * iqr)

/-- `isOutlier` (lines 129–145): fewer than 4 numeric values is never an
outlier; otherwise strictly outside the IQR bounds. -/
def isOutlier (data : List Row) (c : String) (value : ℚ) : Bool :=
  if (numericValues data c).length < 4 then false
  else
    decide (value < (outlierBounds data c).1) ||
    decide (value > (outlierBounds data c).2)

/-- `handleOutlier` (lines 147–164): cap the value at the nearest IQR bound. -/
def handleOutlier (data : List Row) (c : String) (value : ℚ) : ℚ :=
  let b := outlierBounds data c
  if value < b.1 then b.1
  else if value > b.2 then b.2
  else value

/-- `sorted[Math.floor(sorted.length / 2)]`: the lower median of the
ascending-sorted list (0 default is never hit on a nonempty list). -/
def lowerMedian (l : List ℚ) : ℚ :=
  let sorted := sortAsc l
  sorted.getD (sorted.length / 2) 0

/-- First-encounter deduplication, modelling insertion of `String(val)` keys
into the `frequency` object (string keys keep insertion order; no key in the
mode branch is array-index-like, since such strings parse as numbers). -/
def insertKey (ks : List String) (k : String) : List String :=
  if k ∈ ks then ks else ks ++ [k]

/-- `Object.keys(frequency)`: the distinct `String(val)` keys in
first-encounter order. -/
def objectKeys (vs : List Value) : List String :=
  vs.foldl (fun ks v => insertKey ks (Value.keyStr v)) []

/-- `frequency[k]`: how many values print as `k`. -/
def freqOf (vs : List Value) (k : String) : Nat :=
  (vs.filter (fun v => Value.keyStr v == k)).length

/-- `Object.keys(frequency).reduce((a, b) => frequency[a] > frequency[b] ? a : b)`
(lines 186–188); `reduce` seeds with the first key. The empty case is
unreachable (the caller has `values.length > 0`). -/
def modeOf (vs : List Value) : String :=
  match objectKeys vs with
  | [] => ""
  | k :: ks => ks.foldl (fun a b => if freqOf vs a > freqOf vs b then a else b) k

/-- `imputeValue` (lines 166–190): gather non-missing values; `null` (here
`Value.missing`) when none; else the lower median of the numeric-coercible
ones when at least one exists, else the mode string. The mode string carries
`parseFloat` outcome `none`: in that branch every value failed `isNumeric`. -/
def imputeValue (data : List Row) (c : String) : Value :=
  let values := (columnValues data c).filter (fun v => !Value.isMissingB v)
  if values.length = 0 then .missing
  else
    let numericVals := values.filter Value.isNumericB
    if numericVals.length > 0 then
      .num (lowerMedian (numericVals.map Value.coerceNum))
    else
      .str (modeOf values) none

/-- Step 1 of the per-cell cleaning loop (lines 97–103): replace a missing
cell by the imputed value and record the action when imputation produced
one (`value !== null`). -/
def resolveMissing (data : List Row) (c : String) (value : Value) :
    Value × List String :=
  if Value.isMissingB value then
    let v := imputeValue data c
    if v = Value.missing then (v, [])
    else (v, ["Imputed missing value in column " ++ c])
  else (value, [])

/-- The full per-cell cleaning (lines 97–110): missing-value resolution, then
outlier capping — only when the (possibly imputed) value is numeric **and**
number-typed (`this.isNumeric(value) && typeof value === 'number'`). Returns
the cleaned value and the cleaning actions pushed for this cell. -/
def cleanValue (data : List Row) (c : String) (value0 : Value) :
    Value × List String :=
  let s := resolveMissing data c value0
  match s.1 with
  | .num q =>
    if isOutlier data c q then
      (.num (handleOutlier data c q), s.2 ++ ["Handled outlier in column " ++ c])
    else s
  | _ => s

/-- One row of `cleanData`: each column of `this.columns` gets its cleaned
cell. -/
def cleanRow (data : List Row) (columns : List String) (r : Row) : Row :=
  columns.map (fun c => (c, (cleanValue data c (Row.get r c)).1))

/-- `cleanData` (lines 87–119), the returned cleaned table. -/
def cleanData (data : List Row) (columns : List String) : List Row :=
  data.map (cleanRow data columns)

/-- The `cleaningActions` array built locally inside `cleanData`
(lines 89, 101, 109) in cell order. The source never returns it: it is
discarded when `cleanData` returns. -/
def cleanDataActions (data : List Row) (columns : List String) : List String :=
  data.flatMap (fun r => columns.flatMap (fun c => (cleanValue data c (Row.get r c)).2))

/-- The column type decision (lines 203–209): `numeric` iff the count of
numeric-coercible cells strictly exceeds `values.length * 0.8`
(exact in binary floating point for every realistic length). -/
def dataTypeOf (data : List Row) (c : String) : String :=
  let values := columnValues data c
  let numericCount := (values.filter Value.isNumericB).length
  if (numericCount : ℚ) > (values.length : ℚ) * 0.8 then "numeric"
  else "categorical"

/-- The `summary` object returned by `generateSummary`. -/
structure Summary where
  totalRows : Nat
  totalColumns : Nat
  missingValues : List (String × Nat)
  dataTypes : List (String × String)
  outliers : List (String × List ℚ)
  cleaningActions : List String
deriving DecidableEq

/-- `generateSummary` (lines 192–226). The single loop fills the three
per-column objects in column order; `outliers` receives a key **only** for
columns classified `numeric` (line 212). `cleaningActions` is the literal
empty array of line 224. -/
def generateSummary (data : List Row) (columns : List String) : Summary :=
  { totalRows := data.length
    totalColumns := columns.length
    missingValues := columns.map
      (fun c => (c, ((columnValues data c).filter Value.isMissingB).length))
    dataTypes := columns.map (fun c => (c, dataTypeOf data c))
    outliers := (columns.filter (fun c => dataTypeOf data c == "numeric")).map
      (fun c => (c, (numericValues data c).filter (fun v => isOutlier data c v)))
    cleaningActions := [] }

/-- Per-column statistics record. The source stores
`std = Math.sqrt(variance)` rounded to 4 decimals; the square root of a
rational is not rational, so the embedding keeps the pre-root `variance`
(no claim under verification mentions `std`). -/
structure ColumnStats where
  mean? : Option ℚ
  median? : Option ℚ
  variance? : Option ℚ
  min? : Option ℚ
  max? : Option ℚ
  missingCount : Nat
deriving DecidableEq

/-- `parseFloat(x.toFixed(4))`: rounding to 4 decimal places, modelled as
rational half-up rounding of `q * 10000`. -/
def roundTo4 (q : ℚ) : ℚ :=
  (round (q * 10000) : ℤ) / 10000

/-- The local `median = sorted[Math.floor(sorted.length / 2)]` of
`calculateStatistics` (line 247), **before** the `toFixed(4)` rounding of
line 253. -/
def statMedianUnrounded (data : List Row) (c : String) : ℚ :=
  lowerMedian (numericValues data c)

/-- The loop body of `calculateStatistics` (lines 238–268) for one column.
With at least one numeric-coercible value: mean/median rounded to 4 decimals,
min/max at native precision, and `missingCount` = rows **failing** `isNumeric`.
With none: only `missingCount` = rows meeting the literal missing test. -/
def columnStatsOf (data : List Row) (c : String) : ColumnStats :=
  let values := numericValues data c
  if values.length > 0 then
    let sorted := sortAsc values
    let mean := values.sum / (values.length : ℚ)
    let median := statMedianUnrounded data c
    let variance := ((values.map (fun v => (v - mean) ^ 2)).sum) / (values.length : ℚ)
    { mean? := some (roundTo4 mean)
      median? := some (roundTo4 median)
      variance? := some variance
      min? := some (sorted.getD 0 0)
      max? := some (sorted.getD (sorted.length - 1) 0)
      missingCount := (data.filter (fun r => !Value.isNumericB (Row.get r c))).length }
  else
    { mean? := none, median? := none, variance? := none
      min? := none, max? := none
      missingCount := (data.filter (fun r => Value.isMissingB (Row.get r c))).length }

/-- `calculateStatistics` (lines 228–271): per-column statistics in column
order. -/
def calculateStatistics (data : List Row) (columns : List String) :
    List (String × ColumnStats) :=
  columns.map fun c => (c, columnStatsOf data c)

/-- A parsed table: the column list and the row list, as held in
`this.columns` and `this.data` after the (out-of-scope) file parsing. -/
structure Table where
  columns : List String
  data : List Row

/-- The `DataAnalysis` result object. -/
structure Analysis where
  originalData : List Row
  cleanedData : List Row
  summary : Summary
  statistics : List (String × ColumnStats)

/-- The core of `processFile` (lines 46–56) after parsing: the total
`analyze : Table → Analysis` pipeline. It never fails on a parsed table. -/
def analyze (t : Table) : Analysis :=
  { originalData := t.data
    cleanedData := cleanData t.data t.columns
    summary := generateSummary t.data t.columns
    statistics := calculateStatistics t.data t.columns }

/-! ## Concrete tables used as test inputs and witnesses -/

/-- Column `a` = `[1, 2, 3, null]`: one missing cell, three numeric values. -/
def tblA : List Row :=
  [[("a", Value.num 1)], [("a", Value.num 2)], [("a", Value.num 3)],
   [("a", Value.missing)]]

/-- The §8 spec example: column `age` = `[10, 12, 11, 13, 1000]`. -/
def tblAge : List Row :=
  [[("age", Value.num 10)], [("age", Value.num 12)], [("age", Value.num 11)],
   [("age", Value.num 13)], [("age", Value.num 1000)]]

/-- Column `a` = `[10, 11, 12, 13, "1000"]`: the extreme value arrives as a
numeric-coercible **string**. -/
def tblStr : List Row :=
  [[("a", Value.num 10)], [("a", Value.num 11)], [("a", Value.num 12)],
   [("a", Value.num 13)], [("a", Value.str "1000" (some 1000))]]

/-- The §8 spec example: column `city` = `["NY", "NY", "LA", ""]`. -/
def tblCity : List Row :=
  [[("city", Value.str "NY" none)], [("city", Value.str "NY" none)],
   [("city", Value.str "LA" none)], [("city", Value.str "" none)]]

/-- Column `a` with exactly 80% numeric cells: `[1, 2, 3, 4, "x"]`. -/
def tblBoundary : List Row :=
  [[("a", Value.num 1)], [("a", Value.num 2)], [("a", Value.num 3)],
   [("a", Value.num 4)], [("a", Value.str "x" none)]]

/-- Column `a` = `[1, "x", ""]`: one numeric value, one unparsable text,
one empty string. -/
def tblMixed : List Row :=
  [[("a", Value.num 1)], [("a", Value.str "x" none)], [("a", Value.str "" none)]]

/-- Column `a` = `[10, 11, 12, 13, null]`: four numeric values and a missing
cell. -/
def tblImpute : List Row :=
  [[("a", Value.num 10)], [("a", Value.num 11)], [("a", Value.num 12)],
   [("a", Value.num 13)], [("a", Value.missing)]]

/-! ## Generic helper lemmas -/

theorem Row.get_cons (a : String) (v : Value) (r : Row) (c : String) :
    Row.get ((a, v) :: r) c = if a == c then v else Row.get r c := by
  by_cases h : (a == c) = true
  · simp [Row.get, List.find?, h]
  · simp only [Bool.not_eq_true] at h
    simp [Row.get, List.find?, h]

theorem rowGet_map (f : String → Value) (l : List String) (c : String)
    (hc : c ∈ l) : Row.get (l.map (fun x => (x, f x))) c = f c := by
  induction l with
  | nil => cases hc
  | cons a l ih =>
    rw [List.map_cons, Row.get_cons]
    by_cases h : (a == c) = true
    · rw [if_pos h]
      rw [beq_iff_eq] at h
      rw [h]
    · rw [if_neg (by simp [h])]
      rcases List.mem_cons.mp hc with h' | h'
      · exact absurd (beq_iff_eq.mpr h'.symm) (by simp [h])
      · exact ih h'

theorem lookup_map_self {β : Type} (f : String → β) {l : List String}
    {c : String} (hc : c ∈ l) :
    (l.map (fun x => (x, f x))).lookup c = some (f c) := by
  induction l with
  | nil => cases hc
  | cons a l ih =>
    rw [List.map_cons]
    by_cases h : (c == a) = true
    · rw [beq_iff_eq] at h
      subst h
      simp [List.lookup]
    · rcases List.mem_cons.mp hc with h' | h'
      · exact absurd (beq_iff_eq.mpr h') h
      · simpa [List.lookup, h] using ih h'

theorem lookup_map_eq_none {β : Type} (f : String → β) {l : List String}
    {c : String} (hc : c ∉ l) :
    (l.map (fun x => (x, f x))).lookup c = none := by
  induction l with
  | nil => rfl
  | cons a l ih =>
    have ha : ¬ (c == a) = true := fun h =>
      hc (List.mem_cons.mpr (Or.inl (beq_iff_eq.mp h)))
    simpa [List.lookup, ha] using ih (fun h => hc (List.mem_cons.mpr (Or.inr h)))

theorem lookup_map_eq_some {β : Type} (f : String → β) {l : List String}
    {c : String} {b : β}
    (h : (l.map (fun x => (x, f x))).lookup c = some b) : b = f c := by
  induction l with
  | nil => cases h
  | cons a l ih =>
    by_cases ha : (c == a) = true
    · rw [List.map_cons] at h
      simp [List.lookup, ha] at h
      rw [← h, beq_iff_eq.mp ha]
    · rw [List.map_cons] at h
      simp only [List.lookup, ha] at h
      exact ih h

theorem sortAsc_sorted (l : List ℚ) : (sortAsc l).Sorted (· ≤ ·) :=
  List.sorted_insertionSort _ l

theorem sortAsc_length (l : List ℚ) : (sortAsc l).length = l.length :=
  List.length_insertionSort _ l

theorem getD_eq_get {l : List ℚ} {i : Nat} (h : i < l.length) :
    l.getD i 0 = l.get ⟨i, h⟩ := by
  rw [List.getD_eq_getElem?_getD, List.getElem?_eq_getElem h]
  rfl

theorem sorted_getD_mono {l : List ℚ} (hs : l.Sorted (· ≤ ·)) {i j : Nat}
    (hij : i ≤ j) (hj : j < l.length) : l.getD i 0 ≤ l.getD j 0 := by
  have hi : i < l.length := lt_of_le_of_lt hij hj
  rcases lt_or_eq_of_le hij with h | h
  · rw [getD_eq_get hi, getD_eq_get hj]
    exact List.pairwise_iff_get.mp hs ⟨i, hi⟩ ⟨j, hj⟩ h
  · subst h
    exact le_refl _

/-! ## Lemmas about the IQR bounds and the lower median -/

theorem quartile_index_le_median (n : Nat) : n / 4 ≤ n / 2 :=
  Nat.div_le_div_left (by norm_num) (by norm_num)

theorem median_index_le_quartile (n : Nat) : n / 2 ≤ 3 * n / 4 := by
  have h : n / 2 = 2 * n / 4 := by
    rw [show (4 : Nat) = 2 * 2 from rfl, Nat.mul_div_mul_left _ _ (by norm_num)]
  rw [h]
  exact Nat.div_le_div_right (Nat.mul_le_mul_right n (by norm_num))

theorem upper_quartile_index_lt (n : Nat) (hn : 0 < n) : 3 * n / 4 < n :=
  (Nat.div_lt_iff_lt_mul (by norm_num)).mpr (by omega)

/-- With at least 4 numeric values: lower bound ≤ Q1 ≤ median ≤ Q3 ≤ upper
bound for the quantities of `outlierBounds` and `lowerMedian`. -/
theorem median_mem_bounds (data : List Row) (c : String)
    (h4 : 4 ≤ (numericValues data c).length) :
    (outlierBounds data c).1 ≤ lowerMedian (numericValues data c) ∧
    lowerMedian (numericValues data c) ≤ (outlierBounds data c).2 := by
  have hs : (sortAsc (numericValues data c)).Sorted (· ≤ ·) := sortAsc_sorted _
  have hlen : (sortAsc (numericValues data c)).length =
      (numericValues data c).length := sortAsc_length _
  set l := sortAsc (numericValues data c) with hl
  have hn : 0 < l.length := by omega
  have hq3 : 3 * l.length / 4 < l.length := upper_quartile_index_lt _ hn
  have h1 : l.getD (l.length / 4) 0 ≤ l.getD (l.length / 2) 0 :=
    sorted_getD_mono hs (quartile_index_le_median _)
      (lt_of_le_of_lt (median_index_le_quartile _) hq3)
  have h2 : l.getD (l.length / 2) 0 ≤ l.getD (3 * l.length / 4) 0 :=
    sorted_getD_mono hs (median_index_le_quartile _) hq3
  simp only [outlierBounds, lowerMedian, ← hl]
  exact ⟨by linarith, by linarith⟩

theorem bounds_le (data : List Row) (c : String)
    (h4 : 4 ≤ (numericValues data c).length) :
    (outlierBounds data c).1 ≤ (outlierBounds data c).2 := by
  have h := median_mem_bounds data c h4
  linarith [h.1, h.2]

theorem isOutlier_eq_false_of_lt (data : List Row) (c : String) (q : ℚ)
    (h4 : (numericValues data c).length < 4) : isOutlier data c q = false := by
  unfold isOutlier
  rw [if_pos h4]

theorem isOutlier_eq_false_iff (data : List Row) (c : String) (q : ℚ)
    (h4 : 4 ≤ (numericValues data c).length) :
    isOutlier data c q = false ↔
      ((outlierBounds data c).1 ≤ q ∧ q ≤ (outlierBounds data c).2) := by
  unfold isOutlier
  rw [if_neg (by omega)]
  simp [not_lt, and_comm]

theorem median_not_outlier (data : List Row) (c : String) :
    isOutlier data c (lowerMedian (numericValues data c)) = false := by
  by_cases h4 : (numericValues data c).length < 4
  · exact isOutlier_eq_false_of_lt data c _ h4
  · exact (isOutlier_eq_false_iff data c _ (not_lt.mp h4)).mpr
      (median_mem_bounds data c (not_lt.mp h4))

theorem handleOutlier_mem_bounds (data : List Row) (c : String) (q : ℚ)
    (hb : (outlierBounds data c).1 ≤ (outlierBounds data c).2) :
    (outlierBounds data c).1 ≤ handleOutlier data c q ∧
    handleOutlier data c q ≤ (outlierBounds data c).2 := by
  simp only [handleOutlier]
  split_ifs with h1 h2
  · exact ⟨le_refl _, hb⟩
  · exact ⟨hb, le_refl _⟩
  · exact ⟨not_lt.mp h1, not_lt.mp h2⟩

/-- Any number-typed value produced by the per-cell cleaning of a column with
at least 4 numeric values lies within the column's IQR bounds. -/
theorem cleanValue_num_mem_bounds (data : List Row) (c : String) (v : Value)
    (q : ℚ) (h4 : 4 ≤ (numericValues data c).length)
    (h : (cleanValue data c v).1 = Value.num q) :
    (outlierBounds data c).1 ≤ q ∧ q ≤ (outlierBounds data c).2 := by
  rw [cleanValue] at h
  split at h
  · rename_i q' hq'
    split at h
    · rename_i ho
      have hq : q = handleOutlier data c q' := by
        simpa using h.symm
      rw [hq]
      exact handleOutlier_mem_bounds data c q' (bounds_le data c h4)
    · rename_i ho
      have ho' : isOutlier data c q' = false := by
        simpa using ho
      rw [hq'] at h
      have hqq : q' = q := by simpa using h
      rw [← hqq]
      exact (isOutlier_eq_false_iff data c q' h4).mp ho'
  · rename_i hne
    rw [h] at hne
    exact absurd rfl (hne q)

/-! ## Well-formedness consequences -/

theorem wfData_get {data : List Row} (h : WFData data) {r : Row}
    (hr : r ∈ data) (c : String) : Value.wfB (Row.get r c) = true := by
  unfold Row.get
  cases hf : r.find? (fun p => p.1 == c) with
  | none => rfl
  | some p => exact h r hr p (List.mem_of_find?_eq_some hf)

theorem not_missing_of_numeric {v : Value} (hwf : Value.wfB v = true)
    (hn : Value.isNumericB v = true) : Value.isMissingB v = false := by
  cases v with
  | num q => rfl
  | missing => cases hn
  | str s p =>
    cases p with
    | none => cases hn
    | some q => simpa [Value.wfB, Value.isMissingB] using hwf

/-- In a well-formed table, filtering out missing values before filtering for
numeric-coercible ones changes nothing: missing cells are never numeric. -/
theorem filter_nonMissing_numeric {data : List Row} (hwf : WFData data)
    (c : String) :
    ((columnValues data c).filter (fun v => !Value.isMissingB v)).filter
        Value.isNumericB =
      (columnValues data c).filter Value.isNumericB := by
  rw [List.filter_filter]
  refine List.filter_congr ?_
  intro v hv
  obtain ⟨r, hr, rfl⟩ := List.mem_map.mp hv
  by_cases hn : Value.isNumericB (Row.get r c) = true
  · have hm := not_missing_of_numeric (wfData_get hwf hr c) hn
    simp [hn, hm]
  · simp only [Bool.not_eq_true] at hn
    simp [hn]

/-- In a well-formed table, imputation for a column with at least one
numeric-coercible value returns the lower median of the column's
numeric-coerced values. -/
theorem imputeValue_eq_median {data : List Row} {c : String}
    (hwf : WFData data) (hne : numericValues data c ≠ []) :
    imputeValue data c = Value.num (lowerMedian (numericValues data c)) := by
  have hfil := filter_nonMissing_numeric hwf c
  have hnum_ne : (columnValues data c).filter Value.isNumericB ≠ [] := by
    intro h
    exact hne (by rw [numericValues, h]; rfl)
  have hvals_ne :
      (columnValues data c).filter (fun v => !Value.isMissingB v) ≠ [] := by
    intro h
    apply hnum_ne
    rw [← hfil, h]
    rfl
  rw [imputeValue]
  simp only []
  rw [if_neg (by simpa [List.length_eq_zero] using hvals_ne)]
  rw [if_pos (by rw [hfil]; exact List.length_pos.mpr hnum_ne)]
  rw [hfil]
  rfl

/-- Cleaning a cell whose post-imputation value is never an out-of-bounds
number leaves the cell exactly as step 1 produced it (no capping, no
"handled outlier" action). -/
theorem cleanValue_eq_resolveMissing {data : List Row} {c : String} {v : Value}
    (h : ∀ q : ℚ, (resolveMissing data c v).1 = Value.num q →
        isOutlier data c q = false) :
    cleanValue data c v = resolveMissing data c v := by
  rw [cleanValue]
  split
  · rename_i q hq
    rw [h q hq]
    simp
  · rfl

/-- Resolving a missing cell when imputation yields the number `m`. -/
theorem resolveMissing_of_missing_num {data : List Row} {c : String}
    {v : Value} (hv : Value.isMissingB v = true) {m : ℚ}
    (himp : imputeValue data c = Value.num m) :
    resolveMissing data c v =
      (Value.num m, ["Imputed missing value in column " ++ c]) := by
  rw [resolveMissing, if_pos hv]
  simp only [himp]
  rw [if_neg (by simp)]

/-- Resolving a missing cell when imputation yields no value. -/
theorem resolveMissing_of_missing_none {data : List Row} {c : String}
    {v : Value} (hv : Value.isMissingB v = true)
    (himp : imputeValue data c = Value.missing) :
    resolveMissing data c v = (Value.missing, []) := by
  rw [resolveMissing, if_pos hv]
  simp [himp]

/-! ## The claims -/

/-- C1: the claim says that whenever the cleaner imputes a missing cell or
caps an outlier, `summary.cleaningActions` of the returned Analysis contains
the corresponding tagged entry. The code violates this: `cleanData` builds the
action log in a local array that it never returns, and `generateSummary`
hardcodes `cleaningActions: []`. On the table with column `a` = `[1, 2, 3,
null]` one value is imputed (so the locally built log is
`["Imputed missing value in column a"]`), yet the returned summary's log is
empty. -/
theorem c1_cleaning_log_discarded :
    cleanDataActions tblA ["a"] = ["Imputed missing value in column a"] ∧
    (analyze ⟨["a"], tblA⟩).summary.cleaningActions = [] := by
  exact ⟨by decide, rfl⟩

/-- C2, counterexample: on column `a` = `[10, 11, 12, 13, "1000"]` the column
classifies numeric with 5 ≥ 4 numeric-coercible values, yet `cleanedData`
contains a numeric-coercible cell (the string `"1000"`) whose coerced value
lies outside `[Q1 - 1.5*IQR, Q3 + 1.5*IQR] = [8, 16]`: capping requires the
cell to be number-**typed** (`typeof value === 'number'`), so a
numeric-coercible string is never capped. -/
theorem c2_counterexample :
    dataTypeOf tblStr "a" = "numeric" ∧
    4 ≤ (numericValues tblStr "a").length ∧
    ∃ r ∈ cleanData tblStr ["a"],
      Value.isNumericB (Row.get r "a") = true ∧
      ¬ ((outlierBounds tblStr "a").1 ≤ Value.coerceNum (Row.get r "a") ∧
         Value.coerceNum (Row.get r "a") ≤ (outlierBounds tblStr "a").2) := by
  with_unfolding_all decide

/-- C2, amended: for every column classified numeric with at least 4
numeric-coercible values, every number-**typed** cell value in `cleanedData`
for that column lies within `[Q1 - 1.5*IQR, Q3 + 1.5*IQR]` computed from the
original column (numeric-coercible string cells are not capped). -/
theorem c2_number_typed_within_bounds (data : List Row) (columns : List String)
    (c : String) (hc : c ∈ columns) (htype : dataTypeOf data c = "numeric")
    (h4 : 4 ≤ (numericValues data c).length) :
    ∀ r ∈ cleanData data columns, ∀ q : ℚ, Row.get r c = Value.num q →
      (outlierBounds data c).1 ≤ q ∧ q ≤ (outlierBounds data c).2 := by
  intro r hr q hq
  obtain ⟨r0, hr0, rfl⟩ := List.mem_map.mp hr
  rw [cleanRow, rowGet_map _ _ _ hc] at hq
  exact cleanValue_num_mem_bounds data c _ q h4 hq

/-- C2, witness: on the §8 example `age` = `[10, 12, 11, 13, 1000]` the capped
cell value 16 of the cleaned last row lies within the bounds `[8, 16]`. -/
theorem c2_number_typed_within_bounds_witness :
    (outlierBounds tblAge "age").1 ≤ (16 : ℚ) ∧
    (16 : ℚ) ≤ (outlierBounds tblAge "age").2 :=
  c2_number_typed_within_bounds tblAge ["age"] "age" (by decide)
    (by with_unfolding_all decide) (by decide)
    (cleanRow tblAge ["age"] [("age", Value.num 1000)])
    (by with_unfolding_all decide) 16 (by with_unfolding_all decide)

/-- C3, counterexample: the claim says every categorical column gets an entry
with the empty list in `summary.outliers`. The code only assigns
`outliers[column]` for columns classified numeric, so a categorical column
(here `city` = `["NY", "NY", "LA", ""]`) has **no** entry at all. -/
theorem c3_counterexample :
    dataTypeOf tblCity "city" = "categorical" ∧
    ((analyze ⟨["city"], tblCity⟩).summary.outliers).lookup "city" = none := by
  with_unfolding_all decide

/-- C3, amended: for every column classified categorical, the
`summary.outliers` mapping of the returned Analysis contains **no** entry for
that column (entries exist only for numeric-classified columns). -/
theorem c3_categorical_no_outliers_entry (t : Table) (c : String)
    (hcat : dataTypeOf t.data c = "categorical") :
    ((analyze t).summary.outliers).lookup c = none := by
  show ((t.columns.filter (fun c => dataTypeOf t.data c == "numeric")).map
      (fun c => (c, (numericValues t.data c).filter
        (fun v => isOutlier t.data c v)))).lookup c = none
  refine lookup_map_eq_none _ ?_
  intro hmem
  have h := (List.mem_filter.mp hmem).2
  rw [hcat] at h
  exact absurd (beq_iff_eq.mp h) (by decide)

/-- C3, witness for the amended claim at the `city` table. -/
theorem c3_categorical_no_outliers_entry_witness :
    ((analyze ⟨["city"], tblCity⟩).summary.outliers).lookup "city" = none :=
  c3_categorical_no_outliers_entry ⟨["city"], tblCity⟩ "city"
    (by with_unfolding_all decide)

/-- C4: `statistics[col].missingCount` is the count of original cells failing
the Numeric Coercion Predicate when the column has at least one
numeric-coercible value, and the count of literally-missing cells (absent,
empty string, or `"NaN"`) when it has none. -/
theorem c4_statistics_missing_count (data : List Row) (columns : List String)
    (c : String) (hc : c ∈ columns) :
    ∃ st, (calculateStatistics data columns).lookup c = some st ∧
      st.missingCount =
        if (numericValues data c).length > 0 then
          (data.filter (fun r => !Value.isNumericB (Row.get r c))).length
        else
          (data.filter (fun r => Value.isMissingB (Row.get r c))).length := by
  refine ⟨columnStatsOf data c, lookup_map_self _ hc, ?_⟩
  simp only [columnStatsOf]
  split_ifs with h
  · rfl
  · rfl

/-- C4, witness: on column `a` = `[1, "x", ""]` the statistics missing count
follows the Numeric Coercion Predicate branch (counting the unparsable text
`"x"` as well as the empty string, giving 2). -/
theorem c4_statistics_missing_count_witness :
    (∃ st, (calculateStatistics tblMixed ["a"]).lookup "a" = some st ∧
      st.missingCount =
        if (numericValues tblMixed "a").length > 0 then
          (tblMixed.filter (fun r => !Value.isNumericB (Row.get r "a"))).length
        else
          (tblMixed.filter (fun r => Value.isMissingB (Row.get r "a"))).length) ∧
    (tblMixed.filter (fun r => !Value.isNumericB (Row.get r "a"))).length = 2 :=
  ⟨c4_statistics_missing_count tblMixed ["a"] "a" (by decide), by decide⟩

/-- Helper for C5: the strict 0.8 threshold over `ℚ` is the integer comparison
`5 * numericCount > 4 * rowCount`. -/
theorem threshold_iff (m n : Nat) :
    ((m : ℚ) > (n : ℚ) * 0.8) ↔ 5 * m > 4 * n := by
  have h : ((m : ℚ) > (n : ℚ) * 0.8) ↔ ((4 * n : ℚ) < (5 * m : ℚ)) := by
    constructor <;> intro h <;> nlinarith
  rw [gt_iff_lt, gt_iff_lt]
  rw [gt_iff_lt] at h
  rw [h]
  constructor
  · intro h'
    exact_mod_cast h'
  · intro h'
    exact_mod_cast h'

/-- C5: a column classifies `numeric` iff its numeric-coercible cell count
strictly exceeds 0.8 times the number of rows; and a column with exactly 80%
numeric cells (4 of 5) classifies `categorical`. -/
theorem c5_classifier_strict_threshold :
    (∀ (data : List Row) (c : String),
        (dataTypeOf data c = "numeric" ↔
          5 * ((columnValues data c).filter Value.isNumericB).length >
            4 * (columnValues data c).length)) ∧
    dataTypeOf tblBoundary "a" = "categorical" ∧
    5 * ((columnValues tblBoundary "a").filter Value.isNumericB).length =
      4 * (columnValues tblBoundary "a").length := by
  refine ⟨?_, by with_unfolding_all decide, by decide⟩
  intro data c
  simp only [dataTypeOf]
  split_ifs with h
  · exact ⟨fun _ => (threshold_iff _ _).mp h, fun _ => rfl⟩
  · constructor
    · intro hcontr
      exact absurd hcontr (by decide)
    · intro h5
      exact absurd ((threshold_iff _ _).mpr h5) h

/-- C6: a column with fewer than 4 numeric-coercible values is never flagged
for outliers: `isOutlier` is constantly false, any outlier list reported for
the column in the summary is empty, and the per-cell cleaning never enters the
capping step (every cell is exactly what missing-value resolution produced). -/
theorem c6_few_numeric_never_flagged (data : List Row) (columns : List String)
    (c : String) (h4 : (numericValues data c).length < 4) :
    (∀ q : ℚ, isOutlier data c q = false) ∧
    (∀ l, ((generateSummary data columns).outliers).lookup c = some l →
      l = []) ∧
    (∀ v : Value, cleanValue data c v = resolveMissing data c v) := by
  have hfalse : ∀ q : ℚ, isOutlier data c q = false := fun q =>
    isOutlier_eq_false_of_lt data c q h4
  refine ⟨hfalse, ?_, ?_⟩
  · intro l hl
    have hval := lookup_map_eq_some _ hl
    rw [hval]
    exact List.filter_eq_nil_iff.mpr (fun a _ => by simp [hfalse a])
  · intro v
    exact cleanValue_eq_resolveMissing (fun q _ => hfalse q)

/-- C6, witness: on column `a` = `[1, "x", ""]` (one numeric value) no value
is an outlier and cleaning a number cell applies no capping. -/
theorem c6_few_numeric_never_flagged_witness :
    isOutlier tblMixed "a" 1000000 = false ∧
    cleanValue tblMixed "a" (Value.num 1000000) =
      resolveMissing tblMixed "a" (Value.num 1000000) := by
  have h := c6_few_numeric_never_flagged tblMixed ["a"] "a" (by decide)
  exact ⟨h.1 1000000, h.2.2 _⟩

/-- C7: a missing cell of a column whose non-missing values include a
numeric-coercible one is replaced in the cleaned row by the lower median
`sorted[floor(n/2)]` of the column's ascending-sorted numeric-coerced values;
a missing cell of a column with zero non-missing values stays missing. -/
theorem c7_missing_imputed_with_median (data : List Row)
    (columns : List String) (c : String) (r : Row) (hwf : WFData data)
    (hc : c ∈ columns) (hmiss : Value.isMissingB (Row.get r c) = true) :
    (((columnValues data c).filter (fun v => !Value.isMissingB v)).filter
        Value.isNumericB ≠ [] →
      Row.get (cleanRow data columns r) c =
        Value.num (lowerMedian (numericValues data c))) ∧
    ((columnValues data c).filter (fun v => !Value.isMissingB v) = [] →
      Row.get (cleanRow data columns r) c = Value.missing) := by
  have hget : Row.get (cleanRow data columns r) c =
      (cleanValue data c (Row.get r c)).1 := by
    rw [cleanRow]
    exact rowGet_map _ _ _ hc
  constructor
  · intro hne
    rw [filter_nonMissing_numeric hwf c] at hne
    have hnv : numericValues data c ≠ [] := by
      rw [numericValues]
      intro h
      exact hne (List.map_eq_nil_iff.mp h)
    have himp := imputeValue_eq_median hwf hnv
    have hres := resolveMissing_of_missing_num hmiss himp
    have hclean := @cleanValue_eq_resolveMissing data c (Row.get r c)
      (fun q hq => by
        rw [hres] at hq
        have hm : lowerMedian (numericValues data c) = q := by
          simpa using hq
        rw [← hm]
        exact median_not_outlier data c)
    rw [hget, hclean, hres]
  · intro hempty
    have himp : imputeValue data c = Value.missing := by
      rw [imputeValue]
      simp only [hempty]
      rfl
    have hres := resolveMissing_of_missing_none hmiss himp
    have hclean := @cleanValue_eq_resolveMissing data c (Row.get r c)
      (fun q hq => by rw [hres] at hq; cases hq)
    rw [hget, hclean, hres]

/-- C7, witness: cleaning the missing cell of column `a` = `[1, 2, 3, null]`
imputes the lower median 2. -/
theorem c7_missing_imputed_with_median_witness :
    Row.get (cleanRow tblA ["a"] [("a", Value.missing)]) "a" = Value.num 2 := by
  have h := (c7_missing_imputed_with_median tblA ["a"] "a"
    [("a", Value.missing)] (by decide) (by decide) (by decide)).1 (by decide)
  rw [h]
  with_unfolding_all decide

/-- C8: analyzing a table with zero rows succeeds (the pipeline is total):
`summary.totalRows` is 0, every column's summary missing count is 0, and the
statistics entry of every column carries only `missingCount = 0`. -/
theorem c8_empty_rows_analyze (columns : List String) (c : String)
    (hc : c ∈ columns) :
    (analyze ⟨columns, []⟩).summary.totalRows = 0 ∧
    ((analyze ⟨columns, []⟩).summary.missingValues).lookup c = some 0 ∧
    ((analyze ⟨columns, []⟩).statistics).lookup c =
      some { mean? := none, median? := none, variance? := none,
             min? := none, max? := none, missingCount := 0 } := by
  refine ⟨rfl, ?_, ?_⟩
  · exact lookup_map_self
      (fun c => ((columnValues ([] : List Row) c).filter Value.isMissingB).length) hc
  · exact lookup_map_self (fun c => columnStatsOf ([] : List Row) c) hc

/-- C8, witness: the empty table with single column `x`. -/
theorem c8_empty_rows_analyze_witness :
    (analyze ⟨["x"], []⟩).summary.totalRows = 0 ∧
    ((analyze ⟨["x"], []⟩).summary.missingValues).lookup "x" = some 0 ∧
    ((analyze ⟨["x"], []⟩).statistics).lookup "x" =
      some { mean? := none, median? := none, variance? := none,
             min? := none, max? := none, missingCount := 0 } :=
  c8_empty_rows_analyze ["x"] "x" (by decide)

/-- C9: for a column with at least 4 numeric-coercible values, the imputed
lower median lies within the column's IQR bounds, so the capping step never
modifies a cell whose value was just imputed: cleaning a missing cell yields
exactly the imputation result `num (lower median)` with no capping. -/
theorem c9_imputed_median_never_capped (data : List Row) (c : String)
    (hwf : WFData data) (h4 : 4 ≤ (numericValues data c).length) :
    ((outlierBounds data c).1 ≤ lowerMedian (numericValues data c) ∧
      lowerMedian (numericValues data c) ≤ (outlierBounds data c).2) ∧
    ∀ v : Value, Value.isMissingB v = true →
      (resolveMissing data c v).1 =
        Value.num (lowerMedian (numericValues data c)) ∧
      cleanValue data c v = resolveMissing data c v := by
  refine ⟨median_mem_bounds data c h4, ?_⟩
  intro v hv
  have hnv : numericValues data c ≠ [] := by
    intro h
    rw [h] at h4
    simp at h4
  have himp := imputeValue_eq_median hwf hnv
  have hres := resolveMissing_of_missing_num hv himp
  refine ⟨by rw [hres], ?_⟩
  exact cleanValue_eq_resolveMissing (fun q hq => by
    rw [hres] at hq
    have hm : lowerMedian (numericValues data c) = q := by simpa using hq
    rw [← hm]
    exact median_not_outlier data c)

/-- C9, witness: on column `a` = `[10, 11, 12, 13, null]` the imputed median
12 lies within the bounds `[8, 16]` and the missing cell is cleaned to
`num 12` with no capping. -/
theorem c9_imputed_median_never_capped_witness :
    ((outlierBounds tblImpute "a").1 ≤ lowerMedian (numericValues tblImpute "a") ∧
      lowerMedian (numericValues tblImpute "a") ≤ (outlierBounds tblImpute "a").2) ∧
    (resolveMissing tblImpute "a" Value.missing).1 =
      Value.num (lowerMedian (numericValues tblImpute "a")) ∧
    cleanValue tblImpute "a" Value.missing =
      resolveMissing tblImpute "a" Value.missing := by
  have h := c9_imputed_median_never_capped tblImpute "a" (by decide) (by decide)
  exact ⟨h.1, h.2 Value.missing (by decide)⟩

/-- C10: for a column with at least one numeric-coercible value, the value
used to impute missing cells equals the unrounded median computed by the
statistics engine: both select index `floor(n/2)` of the same ascending-sorted
list (missing cells all fail the Numeric Coercion Predicate, so the two
filtered value lists coincide). -/
theorem c10_impute_equals_statistics_median (data : List Row) (c : String)
    (hwf : WFData data) (hne : numericValues data c ≠ []) :
    imputeValue data c = Value.num (statMedianUnrounded data c) :=
  imputeValue_eq_median hwf hne

/-- C10, witness: on column `a` = `[1, 2, 3, null]` both medians are 2. -/
theorem c10_impute_equals_statistics_median_witness :
    imputeValue tblA "a" = Value.num (statMedianUnrounded tblA "a") ∧
    statMedianUnrounded tblA "a" = 2 :=
  ⟨c10_impute_equals_statistics_median tblA "a" (by decide) (by decide),
   by decide⟩

end DataProcessor
